import Mathlib

/-!
Verification development for the spin-orchestration layer of a slot-machine
front end.  The definitions below are shallow embeddings of the TypeScript
source: component state becomes an explicit record, the asynchronous spin
round becomes a pure function threaded over that record together with a
cancellation oracle (one boolean per suspension segment), and money amounts
become rationals.
-/

namespace Slot

/-- A winning payline as delivered by the server (lib/slot-config.ts, WinningLine). -/
structure WinningLineR where
  paylineIndex : Int
  symbol : String
  count : Nat
  payout : Rat
  line : List Nat
  deriving DecidableEq, Repr

/-- Scatter-win part of a spin result (lib/slot-config.ts, SpinResult.scatterWin). -/
structure ScatterWinR where
  count : Nat
  triggeredFreeSpins : Bool
  deriving DecidableEq, Repr

/-- Spin result carried inside a play response (lib/game-api.ts, SpinResult).
The grid is reel-major: grid[reel][row]. -/
structure SpinResultR where
  totalWin : Rat
  winningLines : List WinningLineR
  scatterWin : ScatterWinR
  grid : List (List String)
  actionGameTriggered : Bool
  actionGameSpins : Nat
  featureSymbol : String
  expandedSymbols : List (Nat × Nat)
  featureGameWinningLines : Option (List WinningLineR)
  deriving DecidableEq, Repr

/-- Player sub-object of a play response (lib/game-api.ts, PlayResponse.player). -/
structure PlayerStateR where
  balance : Rat
  freeSpinsRemaining : Nat
  lastWin : Rat
  results : SpinResultR
  actionGameSpins : Nat
  featureSymbol : String
  accumulatedActionGameWin : Option Rat
  deriving DecidableEq, Repr

/-- A play response from the backend (lib/game-api.ts, PlayResponse); the
fields actually read by the orchestrator. -/
structure PlayResponseR where
  player : PlayerStateR
  freeSpins : Nat
  actionGameSpins : Nat
  featureSymbol : String
  deriving DecidableEq, Repr

/-- Observable state of the SlotMachine component (slot-machine.tsx) together
with the props it receives and the outward effects it emits.  Toast and
callback invocations are recorded as event fields so that theorems can talk
about notifications and parent updates. -/
structure MachineState where
  grid : List (List String)
  spinningReels : List Bool
  bouncingReels : List Bool
  expandingReels : List Bool
  reelsToExpand : List Nat
  winningLines : List WinningLineR
  baseGameWinningLines : List WinningLineR
  featureGameWinningLines : List WinningLineR
  showFeatureGameWins : Bool
  winningFeedback : Bool
  lastWin : Rat
  balance : Rat
  freeSpinsRemaining : Nat
  featureSymbol : String
  wasInFreeSpinsMode : Bool
  showFeatureSymbolSelection : Bool
  showActionWheel : Bool
  actionGameSpinsProp : Nat
  hasSession : Bool
  totalBet : Rat
  apiCalls : Nat
  toastError : Bool
  toastInsufficient : Bool
  actionWheelEvents : List (Bool × Nat × Rat)
  featureSelectionEvent : Option (String × Nat)
  deriving DecidableEq, Repr

/-- The isSpinning memo: some reel is literally spinning. -/
def isSpinningM (s : MachineState) : Bool := s.spinningReels.any id

/-- The composite isAnimating memo (slot-machine.tsx): reels spinning, win
feedback visible, any reel expanding or bouncing, feature-symbol selection
open, action wheel open, or post-expansion feature wins being displayed. -/
def isAnimatingM (s : MachineState) : Bool :=
  isSpinningM s || s.winningFeedback || s.expandingReels.any id || s.bouncingReels.any id ||
    s.showFeatureSymbolSelection || s.showActionWheel || s.showFeatureGameWins

/-- The isFreeSpinsMode memo: freeSpinsRemaining is positive. -/
def isFreeSpinsModeM (s : MachineState) : Bool := decide (0 < s.freeSpinsRemaining)

/-- Outcome of the synchronous guard prefix of the spin callback. -/
inductive EntryResult
  | blockedBusyFS
  | blockedSpinning
  | noSession
  | insufficientBalance
  | proceed
  deriving DecidableEq, Repr

/-- The guard prefix of spin() in source order: in free-spin mode any
animation blocks; otherwise only literal reel spinning blocks; then the
session check; then the client-side balance check, which is skipped whenever
free spins or action-game spins are available. -/
def spinEntry (s : MachineState) : EntryResult :=
  if isFreeSpinsModeM s && isAnimatingM s then .blockedBusyFS
  else if !isFreeSpinsModeM s && isSpinningM s then .blockedSpinning
  else if !s.hasSession then .noSession
  else if decide (s.balance < s.totalBet) && s.freeSpinsRemaining == 0
      && s.actionGameSpinsProp == 0 then .insufficientBalance
  else .proceed

/-- Reel-spin branch of the S-key handler (handleKeyDown): requires the
action wheel closed, no animation at all, a session, and either enough
balance or free spins or action-game spins. -/
def keyboardReelSpinAllowed (s : MachineState) : Bool :=
  !s.showActionWheel && !isAnimatingM s && s.hasSession &&
    (decide (s.totalBet ≤ s.balance) || decide (0 < s.freeSpinsRemaining) ||
      decide (0 < s.actionGameSpinsProp))

/-- Autoplay settings (slot-machine.tsx, AutoplaySettings). -/
structure AutoplaySettings where
  numberOfSpins : Nat
  stopOnAnyWin : Bool
  stopOnSingleWinExceeds : Rat
  stopOnFeature : Bool
  stopOnTotalLossExceeds : Rat
  deriving DecidableEq, Repr

/-- Autoplay state (slot-machine.tsx, AutoplayState). -/
structure AutoplayState where
  isActive : Bool
  settings : Option AutoplaySettings
  spinsRemaining : Nat
  totalLoss : Rat
  originalBalance : Rat
  deriving DecidableEq, Repr

/-- The autoplay state written by stopAutoplay(). -/
def stopAutoplayState : AutoplayState :=
  { isActive := false, settings := none, spinsRemaining := 0, totalLoss := 0,
    originalBalance := 0 }

/-- checkAutoplayStopConditions, verbatim from the source: inactive or
unset settings never stop; otherwise stop on any win when enabled, on a
single win above the threshold, on a free-spin trigger when enabled, or when
the loss since autoplay start exceeds the threshold. -/
def checkAutoplayStopConditions (a : AutoplayState) (balance : Rat)
    (r : SpinResultR) : Bool :=
  match a.settings with
  | none => false
  | some st =>
    if !a.isActive then false
    else if st.stopOnAnyWin && decide (0 < r.totalWin) then true
    else if decide (st.stopOnSingleWinExceeds < r.totalWin) then true
    else if st.stopOnFeature && r.scatterWin.triggeredFreeSpins then true
    else if decide (st.stopOnTotalLossExceeds < a.originalBalance - balance) then true
    else false

/-- What the autoplay effect does on a given render. -/
inductive AutoplayEffect
  | idle
  | stopCounter
  | stopInsufficient
  | schedule
  deriving DecidableEq, Repr

/-- The autoplay effect (slot-machine.tsx) in source order: do nothing when
inactive or settings missing; stop when the counter is exhausted; stop with a
toast when the balance is insufficient outside free spins with no action
spins; otherwise schedule the next spin only when nothing is animating and
the balance (or a free/action spin) allows it. -/
def autoplayEffectStep (a : AutoplayState) (s : MachineState) : AutoplayEffect :=
  if !a.isActive || a.settings.isNone then .idle
  else if a.spinsRemaining == 0 then .stopCounter
  else if decide (s.balance < s.totalBet) && !isFreeSpinsModeM s
      && s.actionGameSpinsProp == 0 then .stopInsufficient
  else if !isAnimatingM s && (decide (s.totalBet ≤ s.balance) || isFreeSpinsModeM s ||
      decide (0 < s.actionGameSpinsProp)) then .schedule
  else .idle

/-- Continuation run when the scheduled autoplay spin resolves: a non-null
result meeting a stop condition stops autoplay, otherwise the counter is
decremented. -/
def autoplayAfterSpin (a : AutoplayState) (balance : Rat)
    (result : Option SpinResultR) : AutoplayState :=
  match result with
  | some r =>
    if checkAutoplayStopConditions a balance r then stopAutoplayState
    else { a with spinsRemaining := a.spinsRemaining - 1 }
  | none => { a with spinsRemaining := a.spinsRemaining - 1 }

/-- The three ways a reel spin can be requested. -/
inductive SpinReq
  | action
  | keyboard
  | autoplay
  deriving DecidableEq, Repr

/-- Whether a spin request of the given kind actually starts a round: a
direct action runs only the spin() guards; the keyboard and autoplay paths
first run their own gates and then the spin() guards. -/
def requestStarts : SpinReq → AutoplayState → MachineState → Bool
  | .action, _, s => decide (spinEntry s = .proceed)
  | .keyboard, _, s => keyboardReelSpinAllowed s && decide (spinEntry s = .proceed)
  | .autoplay, a, s =>
    decide (autoplayEffectStep a s = .schedule) && decide (spinEntry s = .proceed)

/-- handleIncreaseBet: look the current bet up in the configured menu; when
absent fall back to the first entry, otherwise advance circularly. -/
def handleIncreaseBet (betAmounts : List Rat) (betAmount : Rat) : Rat :=
  if betAmount ∈ betAmounts then
    betAmounts.getD ((betAmounts.indexOf betAmount + 1) % betAmounts.length) 0
  else betAmounts.headD 0

/-- handleDecreaseBet: when the current bet is absent fall back to the first
entry; at index zero wrap to the last entry; otherwise step down. -/
def handleDecreaseBet (betAmounts : List Rat) (betAmount : Rat) : Rat :=
  if betAmount ∈ betAmounts then
    let i := betAmounts.indexOf betAmount
    if i = 0 then betAmounts.getD (betAmounts.length - 1) 0
    else betAmounts.getD (i - 1) 0
  else betAmounts.headD 0

/-- The game-configuration document as the hooks see it (game-config-types).
The reelStrips field is optional in the document; the other fields modelled
here are present whenever the document itself loaded. -/
structure ConfigDoc where
  gameName : String
  numReels : Nat
  numRows : Nat
  betAmounts : List Rat
  freeSpinsAwarded : Nat
  symbols : List String
  paylines : List (List Nat)
  reelStrips : Option (List (List String))
  deriving DecidableEq, Repr

/-- useNumReels hook: 5 when the document is absent. -/
def useNumReels : Option ConfigDoc → Nat
  | none => 5
  | some c => c.numReels

/-- useBetAmounts hook: a default menu when the document is absent. -/
def useBetAmounts : Option ConfigDoc → List Rat
  | none => [1, 2, 3, 5, 10]
  | some c => c.betAmounts

/-- useReelStrips hook: empty without a document; the configured strips when
present and non-empty; otherwise a generated fallback putting every symbol
on every reel. -/
def useReelStrips : Option ConfigDoc → List (List String)
  | none => []
  | some c =>
    match c.reelStrips with
    | some strips =>
      if 0 < strips.length then strips
      else List.replicate c.numReels c.symbols
    | none => List.replicate c.numReels c.symbols

/-- Whether the SlotMachine component refuses to render the game: it shows
the loading screen exactly when the whole document is absent. -/
def gameplayBlocked : Option ConfigDoc → Bool
  | none => true
  | some _ => false

/-- Number of active paylines, fixed at 5 throughout the component. -/
def numPaylines : Int := 5

/-- Filter a list of winning lines down to scatter entries and active
paylines, as done on every branch of the response handling. -/
def filterActiveLines (ls : List WinningLineR) : List WinningLineR :=
  ls.filter (fun l => l.paylineIndex == -1 || l.paylineIndex < numPaylines)

/-- First-occurrence deduplication, matching the iteration order of a JS
Set built from an array. -/
def uniqueFirst : List Nat → List Nat
  | [] => []
  | x :: xs => x :: (uniqueFirst xs).filter (fun y => y ≠ x)

/-- The set of reels the round will expand: the distinct reel indices of the
expandedSymbols of the response, provided the list is non-empty and the
response carries a feature symbol. -/
def computeReelsToExpand (resp : PlayResponseR) : List Nat :=
  if 0 < resp.player.results.expandedSymbols.length ∧ resp.featureSymbol ≠ "" then
    uniqueFirst (resp.player.results.expandedSymbols.map Prod.fst)
  else []

/-- Expansion threshold: two reels for the premium symbols Queen, Stone,
Leopard and Wolf, three reels for every other symbol. -/
def expansionThreshold (sym : String) : Nat :=
  if sym = "Queen" ∨ sym = "Stone" ∨ sym = "Leopard" ∨ sym = "Wolf" then 2 else 3

/-- The synthesized scatter winning-line entry. -/
def scatterLineOf (resp : PlayResponseR) : WinningLineR :=
  { paylineIndex := -1, symbol := "Scatter",
    count := resp.player.results.scatterWin.count, payout := 0, line := [] }

/-- Base-game lines: the winningLines of the response filtered to active
paylines (identical in and outside free-spin mode). -/
def baseLinesOf (resp : PlayResponseR) : List WinningLineR :=
  filterActiveLines resp.player.results.winningLines

/-- Feature-game lines: the featureGameWinningLines of the response filtered
to active paylines, used only in free-spin mode with a feature symbol. -/
def featureLinesOf (fs : Bool) (resp : PlayResponseR) : List WinningLineR :=
  if fs && !(resp.featureSymbol == "") then
    filterActiveLines (resp.player.results.featureGameWinningLines.getD [])
  else []

/-- Replace the whole spinning-flag array. -/
def setSpinningAll (n : Nat) (b : Bool) (s : MachineState) : MachineState :=
  { s with spinningReels := List.replicate n b }

/-- Reset the whole expanding-flag array to false. -/
def clearExpandingAll (n : Nat) (s : MachineState) : MachineState :=
  { s with expandingReels := List.replicate n false }

/-- Functional update of one reel of the displayed grid. -/
def setGridReel (i : Nat) (col : List String) (s : MachineState) : MachineState :=
  { s with grid := s.grid.set i col }

/-- Functional update of one bounce flag. -/
def setBouncingReel (i : Nat) (b : Bool) (s : MachineState) : MachineState :=
  { s with bouncingReels := s.bouncingReels.set i b }

/-- Functional update of one spinning flag. -/
def setSpinningReel (i : Nat) (b : Bool) (s : MachineState) : MachineState :=
  { s with spinningReels := s.spinningReels.set i b }

/-- The synchronous clearing prefix of spin(): last win, every winning-line
list, the expansion markers, the reel-expand list, the win feedback and the
bounce, expand and spin flag arrays are all reset before anything else
happens. -/
def clearTransient (n : Nat) (s : MachineState) : MachineState :=
  { s with
    lastWin := 0, winningLines := [], baseGameWinningLines := [],
    featureGameWinningLines := [], showFeatureGameWins := false,
    reelsToExpand := [], winningFeedback := false,
    expandingReels := List.replicate n false,
    bouncingReels := List.replicate n false,
    spinningReels := List.replicate n false }

/-- Nominal effect of the detached reel starter: all reels spinning. -/
def startAllReels (n : Nat) (s : MachineState) : MachineState :=
  { s with spinningReels := List.replicate n true }

/-- Values the spin closure captures at creation time. -/
structure RoundIn where
  fs : Bool
  turbo : Bool
  numReels : Nat
  numRows : Nat
  capturedFreeSpins : Nat
  deriving DecidableEq, Repr

/-- The reel-stop loop.  Per reel: cancellation check at the top of the
iteration, a stagger wait, a second check, the grid update for that reel, a
grid-settle wait after which the source performs no check before raising the
bounce flag and clearing the spin flag of the reel.  Cancellation aborts
clear every spinning flag.  The oracle argument gives the flag value per
suspension segment; the Nat argument is the current segment. -/
def reelStopLoop (c : Nat → Bool) (n : Nat) (orig : List (List String)) :
    List Nat → Nat → MachineState → MachineState × Bool × Nat
  | [], seg, s => (s, false, seg)
  | i :: rest, seg, s =>
    if c seg then (setSpinningAll n false s, true, seg)
    else
      let seg1 := seg + 1
      if c seg1 then (setSpinningAll n false s, true, seg1)
      else
        let s1 := setGridReel i (orig.getD i []) s
        let seg2 := seg1 + 1
        let s2 := setBouncingReel i true s1
        let s3 := setSpinningReel i false s2
        reelStopLoop c n orig rest seg2 s3

/-- The expansion loop.  Per expanding reel: cancellation check, a wait, a
second check, the grid overwrite with the feature symbol, another wait and a
final check.  Cancellation aborts clear every expanding flag. -/
def expansionLoop (c : Nat → Bool) (n rows : Nat) (fsym : String) :
    List Nat → Nat → MachineState → MachineState × Bool × Nat
  | [], seg, s => (s, false, seg)
  | i :: rest, seg, s =>
    if c seg then (clearExpandingAll n s, true, seg)
    else
      let seg1 := seg + 1
      if c seg1 then (clearExpandingAll n s, true, seg1)
      else
        let s1 := setGridReel i (List.replicate rows fsym) s
        let seg2 := seg1 + 1
        if c seg2 then (clearExpandingAll n s1, true, seg2)
        else expansionLoop c n rows fsym rest seg2 s1

/-- The expansion sequence run when the threshold is met: hide the feature
wins, wait with a check, run the per-reel expansion loop, wait with a check,
then reveal: raise showFeatureGameWins, clear the expanding flags and
install the feature-game lines (or clear every line when there are none),
dwell with a final check, and lower showFeatureGameWins again. -/
def expandSequence (c : Nat → Bool) (p : RoundIn) (resp : PlayResponseR)
    (rte : List Nat) (fl : List WinningLineR) (seg : Nat) (s : MachineState) :
    MachineState × Bool × Nat :=
  let s3 := { s with showFeatureGameWins := false }
  let seg3 := seg + 1
  if c seg3 then (clearExpandingAll p.numReels s3, true, seg3)
  else
    let r := expansionLoop c p.numReels p.numRows resp.featureSymbol rte seg3 s3
    if r.2.1 then r
    else
      let s4 := r.1
      let seg4 := r.2.2
      let seg5 := seg4 + 1
      if c seg5 then (clearExpandingAll p.numReels s4, true, seg5)
      else
        let s5 := { s4 with showFeatureGameWins := true }
        let s6 := clearExpandingAll p.numReels s5
        if fl ≠ [] then
          let s7 := { s6 with featureGameWinningLines := fl, winningLines := fl }
          let seg6 := seg5 + 1
          if c seg6 then (s7, true, seg6)
          else ({ s7 with showFeatureGameWins := false }, false, seg6)
        else
          let s7 := { s6 with winningLines := [], featureGameWinningLines := [] }
          let seg6 := seg5 + 1
          if c seg6 then (s7, true, seg6)
          else ({ s7 with showFeatureGameWins := false }, false, seg6)

/-- The result-display phase, entered after every reel has stopped.  In
free-spin mode: optionally synthesize the scatter line, raise the expanding
flags early when the expansion threshold is met, show base-game lines (or
wait), then run the expansion sequence.  Outside free-spin mode: show the
base lines plus the scatter line when free spins were triggered. -/
def displayPhase (c : Nat → Bool) (p : RoundIn) (resp : PlayResponseR)
    (rte : List Nat) (seg : Nat) (s : MachineState) : MachineState × Bool × Nat :=
  let baseLines := baseLinesOf resp
  let featureLines := featureLinesOf p.fs resp
  if p.fs then
    let baseLines2 :=
      if (resp.player.results.scatterWin.triggeredFreeSpins ||
            decide (0 < resp.player.results.scatterWin.count)) &&
          !(resp.featureSymbol == "Scatter") then
        baseLines ++ [scatterLineOf resp]
      else baseLines
    let thr := expansionThreshold resp.featureSymbol
    let willExpand := decide (thr ≤ rte.length) && !(resp.featureSymbol == "")
    let s1 :=
      if willExpand then
        { s with expandingReels := (List.range p.numReels).map (fun j => decide (j ∈ rte)) }
      else s
    let s2 :=
      if baseLines2 ≠ [] then
        { s1 with winningLines := baseLines2, baseGameWinningLines := baseLines2 }
      else s1
    let seg2 := if baseLines2 ≠ [] then seg else seg + 1
    if willExpand then expandSequence c p resp rte featureLines seg2 s2
    else ({ s2 with showFeatureGameWins := false }, false, seg2)
  else
    let newLines :=
      if resp.player.results.scatterWin.triggeredFreeSpins then
        baseLines ++ [scatterLineOf resp]
      else baseLines
    ({ s with winningLines := newLines }, false, seg)

/-- Session sync: balance, free spins remaining, feature symbol and last win
are copied verbatim from the player object of the response. -/
def syncPhase (resp : PlayResponseR) (s : MachineState) : MachineState :=
  { s with balance := resp.player.balance,
           freeSpinsRemaining := resp.player.freeSpinsRemaining,
           featureSymbol := resp.player.featureSymbol,
           lastWin := resp.player.lastWin }

/-- Record one onActionWheelStateChange invocation. -/
def emitWheel (e : Bool × Nat × Rat) (st : MachineState) : MachineState :=
  { st with actionWheelEvents := st.actionWheelEvents ++ [e] }

/-- First post-sync block: the action-wheel callback emissions, in source
order over the free-spin-mode and trigger branches. -/
def actionWheelSync (p : RoundIn) (resp : PlayResponseR) (s : MachineState) : MachineState :=
  let baw := resp.player.accumulatedActionGameWin.getD 0
  let trig := resp.player.results.actionGameTriggered
  let trigFS := resp.player.results.scatterWin.triggeredFreeSpins
  if p.fs then
    if trig then emitWheel (false, resp.actionGameSpins, baw) s else s
  else if trig then
    if !trigFS then emitWheel (true, resp.actionGameSpins, baw) s
    else emitWheel (false, resp.actionGameSpins, baw) s
  else emitWheel (false, resp.actionGameSpins, baw) s

/-- Second post-sync block: detect the end of free spins, raise the
was-in-free-spins flag and open the wheel when spins or winnings wait. -/
def freeSpinsDoneSync (p : RoundIn) (resp : PlayResponseR) (s : MachineState) : MachineState :=
  let baw := resp.player.accumulatedActionGameWin.getD 0
  if 0 < p.capturedFreeSpins ∧ resp.player.freeSpinsRemaining = 0 then
    let st := { s with wasInFreeSpinsMode := true }
    if 0 < resp.actionGameSpins ∨ 0 < baw then
      emitWheel (true, resp.actionGameSpins, baw) st
    else st
  else if 0 < resp.player.freeSpinsRemaining then
    { s with wasInFreeSpinsMode := false }
  else s

/-- Third post-sync block: trigger the feature-symbol selection on a fresh
free-spin award, otherwise raise the win feedback on a positive win. -/
def feedbackSync (p : RoundIn) (resp : PlayResponseR) (s : MachineState) : MachineState :=
  if resp.player.results.scatterWin.triggeredFreeSpins ∧
      resp.featureSymbol ≠ "" ∧ p.fs = false then
    { s with featureSelectionEvent := some (resp.featureSymbol, resp.freeSpins) }
  else if 0 < resp.player.lastWin then
    { s with winningFeedback := true }
  else s

/-- Post-sync bookkeeping: the three blocks in source order. -/
def eventsPhase (p : RoundIn) (resp : PlayResponseR) (s : MachineState) : MachineState :=
  feedbackSync p resp (freeSpinsDoneSync p resp (actionWheelSync p resp s))

/-- Body of the round after the network response arrived (segment 2): the
reel-expand list is written from the response BEFORE the first cancellation
check of this segment, then the minimum-spin-time wait, the reel-stop loop,
the settle wait, the display phase, a final check and the session sync. -/
def roundBody (c : Nat → Bool) (p : RoundIn) (resp : PlayResponseR)
    (s : MachineState) : MachineState × Option SpinResultR :=
  let rte := computeReelsToExpand resp
  let s1 := { s with reelsToExpand := rte }
  if c 2 then (s1, none)
  else
    if c 3 then (s1, none)
    else
      let s2 := { s1 with winningLines := [], showFeatureGameWins := false }
      let r1 := reelStopLoop c p.numReels resp.player.results.grid
          (List.range p.numReels) 3 s2
      if r1.2.1 then (r1.1, none)
      else
        let s3 := r1.1
        let seg3 := r1.2.2
        if c seg3 then (s3, none)
        else
          let seg4 := seg3 + 1
          if c seg4 then (s3, none)
          else
            let r2 := displayPhase c p resp rte seg4 s3
            if r2.2.1 then (r2.1, none)
            else
              let s4 := r2.1
              let seg5 := r2.2.2
              if c seg5 then (s4, none)
              else
                let s5 := syncPhase resp s4
                let s6 := eventsPhase p resp s5
                (s6, some resp.player.results)

/-- One full spin round past the guards: the synchronous clearing prefix,
the cancellation-flag reset across the zero-delay wait (segment 1), the
detached reel starter, the single network request, and then either the
response body or the failure path (toast unless cancelled, spinning flags
cleared). -/
def spinRound (c : Nat → Bool) (p : RoundIn) (api : Option PlayResponseR)
    (s0 : MachineState) : MachineState × Option SpinResultR :=
  let s1 := clearTransient p.numReels s0
  let s2 := startAllReels p.numReels s1
  let s3 := { s2 with apiCalls := s2.apiCalls + 1 }
  match api with
  | none =>
    let s4 := if c 2 then s3 else { s3 with toastError := true }
    (setSpinningAll p.numReels false s4, none)
  | some resp => roundBody c p resp s3

/-- A spin attempt: the guard prefix, then (only on proceed) the round. -/
def spinFull (c : Nat → Bool) (p : RoundIn) (api : Option PlayResponseR)
    (s : MachineState) : MachineState × Option SpinResultR :=
  match spinEntry s with
  | .blockedBusyFS => (s, none)
  | .blockedSpinning => (s, none)
  | .noSession => (s, none)
  | .insufficientBalance => ({ s with toastInsufficient := true }, none)
  | .proceed => spinRound c p api s

/-- Oracle of a round that is never superseded. -/
def neverCancelled : Nat → Bool := fun _ => false

/-- Oracle of a round whose cancellation flag is raised while the round is
suspended entering segment k and stays raised. -/
def cancelFrom (k : Nat) : Nat → Bool := fun j => decide (k ≤ j)

/-- Page-level state relevant to the action wheel (app/page.tsx). -/
structure HomeState where
  showActionWheel : Bool
  actionGameSpins : Nat
  accumulatedActionWin : Rat
  pendingBalanceUpdate : Option Rat
  deriving DecidableEq, Repr

/-- Response of the action-game spin endpoint (lib/game-api.ts,
ActionGameSpinResponse), flattened to the fields the page reads. -/
structure ActionGameSpinResponseR where
  win : Rat
  additionalSpins : Nat
  wheelResult : String
  remainingSpins : Nat
  accumulatedWin : Rat
  balance : Rat
  deriving DecidableEq, Repr

/-- handleActionWheelSpin (page.tsx): copy remaining spins and the
accumulated win from the server response, keep the wheel visible while spins
remain, and stash the balance for deferred application. -/
def handleActionWheelSpin (r : ActionGameSpinResponseR) (s : HomeState) : HomeState :=
  let s1 := { s with actionGameSpins := r.remainingSpins,
                     accumulatedActionWin := r.accumulatedWin }
  let s2 := if 0 < r.remainingSpins then { s1 with showActionWheel := true } else s1
  { s2 with pendingBalanceUpdate := some r.balance }

/-- handleActionWheelComplete (page.tsx): close the wheel and zero the spin
count; the accumulated win is deliberately left untouched. -/
def handleActionWheelComplete (s : HomeState) : HomeState :=
  { s with showActionWheel := false, actionGameSpins := 0 }

/-- handleActionWheelStateChange (page.tsx): overwrite wheel visibility,
spin count and accumulated win with the values reported by the slot
machine. -/
def handleActionWheelStateChange (showWheel : Bool) (spins : Nat)
    (accumulatedWin : Rat) (s : HomeState) : HomeState :=
  { s with showActionWheel := showWheel, actionGameSpins := spins,
            accumulatedActionWin := accumulatedWin }

/-- A small concrete two-reel machine state used to instantiate theorems:
idle base game, one-row reels, a session, enough balance for the bet. -/
def sBase : MachineState :=
  { grid := [["A"], ["B"]], spinningReels := [false, false],
    bouncingReels := [false, false], expandingReels := [false, false],
    reelsToExpand := [], winningLines := [], baseGameWinningLines := [],
    featureGameWinningLines := [], showFeatureGameWins := false,
    winningFeedback := false, lastWin := 3, balance := 100,
    freeSpinsRemaining := 0, featureSymbol := "",
    wasInFreeSpinsMode := false, showFeatureSymbolSelection := false,
    showActionWheel := false, actionGameSpinsProp := 0, hasSession := true,
    totalBet := 2, apiCalls := 0, toastError := false,
    toastInsufficient := false, actionWheelEvents := [],
    featureSelectionEvent := none }

/-- sBase while a win animation is still settling. -/
def sFeedback : MachineState := { sBase with winningFeedback := true }

/-- sBase in free-spin mode with a feature symbol. -/
def sFree : MachineState :=
  { sBase with freeSpinsRemaining := 4, featureSymbol := "Queen" }

/-- sBase with a balance below the bet. -/
def sBroke : MachineState := { sBase with balance := 1 }

/-- Round parameters matching sFree. -/
def pFree : RoundIn :=
  { fs := true, turbo := false, numReels := 2, numRows := 1,
    capturedFreeSpins := 4 }

/-- Round parameters matching sBase. -/
def pBase : RoundIn :=
  { fs := false, turbo := false, numReels := 2, numRows := 1,
    capturedFreeSpins := 0 }

/-- A feature-game winning line on payline 0 for the Queen symbol. -/
def queenLine : WinningLineR :=
  { paylineIndex := 0, symbol := "Queen", count := 2, payout := 5,
    line := [0, 0] }

/-- A free-spin response expanding the Queen symbol on both reels. -/
def respExpand : PlayResponseR :=
  { player :=
    { balance := 90, freeSpinsRemaining := 3, lastWin := 5,
      results :=
      { totalWin := 5, winningLines := [],
        scatterWin := { count := 0, triggeredFreeSpins := false },
        grid := [["C"], ["Queen"]], actionGameTriggered := false,
        actionGameSpins := 0, featureSymbol := "Queen",
        expandedSymbols := [(0, 0), (1, 0), (0, 0)],
        featureGameWinningLines := some [queenLine] },
      actionGameSpins := 0, featureSymbol := "Queen",
      accumulatedActionGameWin := none },
    freeSpins := 0, actionGameSpins := 0, featureSymbol := "Queen" }

/-- A configuration document lacking the reelStrips field. -/
def cfgNoStrips : ConfigDoc :=
  { gameName := "G", numReels := 2, numRows := 3, betAmounts := [1, 2],
    freeSpinsAwarded := 10, symbols := ["A", "B"], paylines := [[0, 0]],
    reelStrips := none }

/-- A page state holding accumulated action-game winnings. -/
def homeBase : HomeState :=
  { showActionWheel := true, actionGameSpins := 2, accumulatedActionWin := 10,
    pendingBalanceUpdate := none }

/-- A wheel-spin response whose server-side accumulated win is below the
value currently displayed. -/
def wheelRespDrop : ActionGameSpinResponseR :=
  { win := 0, additionalSpins := 0, wheelResult := "nothing",
    remainingSpins := 1, accumulatedWin := 0, balance := 100 }

/-- A wheel-spin response whose server-side accumulated win grew. -/
def wheelRespUp : ActionGameSpinResponseR :=
  { win := 5, additionalSpins := 0, wheelResult := "R10",
    remainingSpins := 1, accumulatedWin := 15, balance := 100 }

/-! Auxiliary lemmas about list updates and replicated flag arrays. -/

theorem getD_set_self {α : Type} (l : List α) (i : Nat) (v d : α)
    (h : i < l.length) : (l.set i v).getD i d = v := by
  rw [List.getD_eq_getElem _ _ (by simpa using h)]
  simp [List.getElem_set]

theorem getD_set_ne {α : Type} (l : List α) (i j : Nat) (v d : α)
    (hne : j ≠ i) : (l.set j v).getD i d = l.getD i d := by
  simp [List.getD_eq_getElem?_getD, List.getElem?_set_ne hne]

theorem getD_set_stable {α : Type} (l : List α) (j i : Nat) (v d : α)
    (h : l.getD i d = v) : (l.set j v).getD i d = v := by
  by_cases hij : j = i
  · subst hij
    by_cases hlen : j < l.length
    · exact getD_set_self l j v d hlen
    · have hlen2 : l.length ≤ j := Nat.le_of_not_lt hlen
      rw [List.getD_eq_default _ _ (by simpa using hlen2)]
      rw [List.getD_eq_default _ _ hlen2] at h
      exact h
  · rw [getD_set_ne l i j v d hij]
    exact h

theorem any_replicate_false (n : Nat) : (List.replicate n false).any id = false := by
  induction n with
  | zero => rfl
  | succ k ih => simp [List.replicate_succ, ih]

/-! Preservation lemmas: the visual phases of a round never touch the
request counter, and the reel-stop loop never changes the grid length. -/

theorem reelStopLoop_apiCalls (c : Nat → Bool) (n : Nat)
    (orig : List (List String)) :
    ∀ (l : List Nat) (seg : Nat) (s : MachineState),
      (reelStopLoop c n orig l seg s).1.apiCalls = s.apiCalls
  | [], _, _ => rfl
  | i :: rest, seg, s => by
    simp only [reelStopLoop]
    split
    · rfl
    · split
      · rfl
      · exact reelStopLoop_apiCalls c n orig rest _ _

theorem reelStopLoop_gridLength (c : Nat → Bool) (n : Nat)
    (orig : List (List String)) :
    ∀ (l : List Nat) (seg : Nat) (s : MachineState),
      (reelStopLoop c n orig l seg s).1.grid.length = s.grid.length
  | [], _, _ => rfl
  | i :: rest, seg, s => by
    simp only [reelStopLoop]
    split
    · rfl
    · split
      · rfl
      · rw [reelStopLoop_gridLength c n orig rest _ _]
        simp [setGridReel, setBouncingReel, setSpinningReel]

theorem reelStopLoop_noAbort (n : Nat) (orig : List (List String)) :
    ∀ (l : List Nat) (seg : Nat) (s : MachineState),
      (reelStopLoop neverCancelled n orig l seg s).2.1 = false
  | [], _, _ => rfl
  | i :: rest, seg, s => by
    simp only [reelStopLoop, neverCancelled, Bool.false_eq_true, if_false]
    exact reelStopLoop_noAbort n orig rest _ _

theorem expansionLoop_apiCalls (c : Nat → Bool) (n rows : Nat) (fsym : String) :
    ∀ (l : List Nat) (seg : Nat) (s : MachineState),
      (expansionLoop c n rows fsym l seg s).1.apiCalls = s.apiCalls
  | [], _, _ => rfl
  | i :: rest, seg, s => by
    simp only [expansionLoop]
    split
    · rfl
    · split
      · rfl
      · split
        · rfl
        · exact expansionLoop_apiCalls c n rows fsym rest _ _

theorem expansionLoop_noAbort (n rows : Nat) (fsym : String) :
    ∀ (l : List Nat) (seg : Nat) (s : MachineState),
      (expansionLoop neverCancelled n rows fsym l seg s).2.1 = false
  | [], _, _ => rfl
  | i :: rest, seg, s => by
    simp only [expansionLoop, neverCancelled, Bool.false_eq_true, if_false]
    exact expansionLoop_noAbort n rows fsym rest _ _

theorem expansionLoop_grid_stable (c : Nat → Bool) (n rows : Nat) (fsym : String) :
    ∀ (l : List Nat) (seg : Nat) (s : MachineState) (i : Nat),
      s.grid.getD i [] = List.replicate rows fsym →
      (expansionLoop c n rows fsym l seg s).1.grid.getD i [] =
        List.replicate rows fsym
  | [], _, _, _, h => h
  | j :: rest, seg, s, i, h => by
    simp only [expansionLoop]
    split
    · exact h
    · split
      · exact h
      · split
        · exact getD_set_stable _ _ _ _ _ h
        · exact expansionLoop_grid_stable c n rows fsym rest _ _ i
            (getD_set_stable _ _ _ _ _ h)

theorem expansionLoop_grid_never (n rows : Nat) (fsym : String) :
    ∀ (l : List Nat) (seg : Nat) (s : MachineState),
      (∀ j ∈ l, j < s.grid.length) →
      ∀ i ∈ l, (expansionLoop neverCancelled n rows fsym l seg s).1.grid.getD i [] =
        List.replicate rows fsym
  | [], _, _, _, i, hi => absurd hi (List.not_mem_nil i)
  | j :: rest, seg, s, hlt, i, hi => by
    simp only [expansionLoop, neverCancelled, Bool.false_eq_true, if_false]
    rcases List.mem_cons.mp hi with h | h
    · subst h
      exact expansionLoop_grid_stable neverCancelled n rows fsym rest _ _ i
        (getD_set_self _ _ _ _ (hlt i (List.mem_cons_self i rest)))
    · exact expansionLoop_grid_never n rows fsym rest _ _
        (fun k hk => by
          simpa [setGridReel] using hlt k (List.mem_cons_of_mem j hk)) i h

theorem expandSequence_apiCalls (c : Nat → Bool) (p : RoundIn)
    (resp : PlayResponseR) (rte : List Nat) (fl : List WinningLineR)
    (seg : Nat) (s : MachineState) :
    (expandSequence c p resp rte fl seg s).1.apiCalls = s.apiCalls := by
  unfold expandSequence
  dsimp only
  split_ifs <;>
    simp [clearExpandingAll, expansionLoop_apiCalls]

theorem expandSequence_noAbort (p : RoundIn) (resp : PlayResponseR)
    (rte : List Nat) (fl : List WinningLineR) (seg : Nat) (s : MachineState) :
    (expandSequence neverCancelled p resp rte fl seg s).2.1 = false := by
  unfold expandSequence
  dsimp only
  simp [neverCancelled, expansionLoop_noAbort]
  split_ifs <;> rfl

theorem expandSequence_never (p : RoundIn) (resp : PlayResponseR)
    (rte : List Nat) (fl : List WinningLineR) (seg : Nat) (s : MachineState)
    (hlt : ∀ j ∈ rte, j < s.grid.length) :
    (expandSequence neverCancelled p resp rte fl seg s).1.winningLines = fl ∧
    (expandSequence neverCancelled p resp rte fl seg s).1.featureGameWinningLines = fl ∧
    ∀ i ∈ rte, (expandSequence neverCancelled p resp rte fl seg s).1.grid.getD i [] =
      List.replicate p.numRows resp.featureSymbol := by
  unfold expandSequence
  dsimp only
  simp only [neverCancelled, Bool.false_eq_true, if_false, expansionLoop_noAbort]
  have hgrid := expansionLoop_grid_never p.numReels p.numRows resp.featureSymbol rte
    (seg + 1) { s with showFeatureGameWins := false } hlt
  split_ifs with hfl
  · exact ⟨rfl, rfl, fun i hi => hgrid i hi⟩
  · rw [not_ne_iff] at hfl
    subst hfl
    exact ⟨rfl, rfl, fun i hi => hgrid i hi⟩

theorem displayPhase_apiCalls (c : Nat → Bool) (p : RoundIn) (resp : PlayResponseR)
    (rte : List Nat) (seg : Nat) (s : MachineState) :
    (displayPhase c p resp rte seg s).1.apiCalls = s.apiCalls := by
  unfold displayPhase
  dsimp only
  split_ifs <;>
    simp [expandSequence_apiCalls]

theorem displayPhase_noAbort (p : RoundIn) (resp : PlayResponseR)
    (rte : List Nat) (seg : Nat) (s : MachineState) :
    (displayPhase neverCancelled p resp rte seg s).2.1 = false := by
  unfold displayPhase
  dsimp only
  split_ifs <;>
    simp [expandSequence_noAbort]

theorem displayPhase_never_expand (p : RoundIn) (resp : PlayResponseR)
    (rte : List Nat) (seg : Nat) (s : MachineState)
    (hfs : p.fs = true) (hsym : resp.featureSymbol ≠ "")
    (hthr : expansionThreshold resp.featureSymbol ≤ rte.length)
    (hlt : ∀ j ∈ rte, j < s.grid.length) :
    (displayPhase neverCancelled p resp rte seg s).1.winningLines =
      featureLinesOf p.fs resp ∧
    (displayPhase neverCancelled p resp rte seg s).1.featureGameWinningLines =
      featureLinesOf p.fs resp ∧
    ∀ i ∈ rte, (displayPhase neverCancelled p resp rte seg s).1.grid.getD i [] =
      List.replicate p.numRows resp.featureSymbol := by
  have hsymb : (resp.featureSymbol == "") = false := by
    simpa using hsym
  have hthr2 : decide (expansionThreshold resp.featureSymbol ≤ rte.length) = true :=
    decide_eq_true hthr
  unfold displayPhase
  dsimp only
  rw [hfs]
  simp only [if_true]
  split_ifs <;>
    first
      | (apply expandSequence_never
         intro j hj
         exact hlt j hj)
      | (exfalso
         simp_all)

theorem actionWheelSync_frame (p : RoundIn) (resp : PlayResponseR) (s : MachineState) :
    ∃ ev, actionWheelSync p resp s = { s with actionWheelEvents := ev } := by
  unfold actionWheelSync emitWheel
  dsimp only
  split_ifs <;> exact ⟨_, rfl⟩

theorem freeSpinsDoneSync_frame (p : RoundIn) (resp : PlayResponseR) (s : MachineState) :
    ∃ ev ws, freeSpinsDoneSync p resp s =
      { s with actionWheelEvents := ev, wasInFreeSpinsMode := ws } := by
  unfold freeSpinsDoneSync emitWheel
  dsimp only
  split_ifs <;> exact ⟨_, _, rfl⟩

theorem feedbackSync_frame (p : RoundIn) (resp : PlayResponseR) (s : MachineState) :
    ∃ fe wf, feedbackSync p resp s =
      { s with featureSelectionEvent := fe, winningFeedback := wf } := by
  unfold feedbackSync
  split_ifs <;> exact ⟨_, _, rfl⟩

theorem eventsPhase_frame (p : RoundIn) (resp : PlayResponseR) (s : MachineState) :
    ∃ ev fe wf ws, eventsPhase p resp s =
      { s with
        actionWheelEvents := ev, featureSelectionEvent := fe,
        winningFeedback := wf, wasInFreeSpinsMode := ws } := by
  obtain ⟨ev1, h1⟩ := actionWheelSync_frame p resp s
  obtain ⟨ev2, ws2, h2⟩ := freeSpinsDoneSync_frame p resp (actionWheelSync p resp s)
  obtain ⟨fe3, wf3, h3⟩ := feedbackSync_frame p resp
    (freeSpinsDoneSync p resp (actionWheelSync p resp s))
  refine ⟨ev2, fe3, wf3, ws2, ?_⟩
  show feedbackSync p resp (freeSpinsDoneSync p resp (actionWheelSync p resp s)) = _
  rw [h3, h2, h1]

/-! Field preservation through the post-sync bookkeeping. -/

theorem eventsPhase_balance (p : RoundIn) (resp : PlayResponseR) (s : MachineState) :
    (eventsPhase p resp s).balance = s.balance := by
  obtain ⟨ev, fe, wf, ws, h⟩ := eventsPhase_frame p resp s
  rw [h]

theorem eventsPhase_freeSpins (p : RoundIn) (resp : PlayResponseR) (s : MachineState) :
    (eventsPhase p resp s).freeSpinsRemaining = s.freeSpinsRemaining := by
  obtain ⟨ev, fe, wf, ws, h⟩ := eventsPhase_frame p resp s
  rw [h]

theorem eventsPhase_featureSymbol (p : RoundIn) (resp : PlayResponseR) (s : MachineState) :
    (eventsPhase p resp s).featureSymbol = s.featureSymbol := by
  obtain ⟨ev, fe, wf, ws, h⟩ := eventsPhase_frame p resp s
  rw [h]

theorem eventsPhase_lastWin (p : RoundIn) (resp : PlayResponseR) (s : MachineState) :
    (eventsPhase p resp s).lastWin = s.lastWin := by
  obtain ⟨ev, fe, wf, ws, h⟩ := eventsPhase_frame p resp s
  rw [h]

theorem eventsPhase_grid (p : RoundIn) (resp : PlayResponseR) (s : MachineState) :
    (eventsPhase p resp s).grid = s.grid := by
  obtain ⟨ev, fe, wf, ws, h⟩ := eventsPhase_frame p resp s
  rw [h]

theorem eventsPhase_winningLines (p : RoundIn) (resp : PlayResponseR) (s : MachineState) :
    (eventsPhase p resp s).winningLines = s.winningLines := by
  obtain ⟨ev, fe, wf, ws, h⟩ := eventsPhase_frame p resp s
  rw [h]

theorem eventsPhase_featureGameLines (p : RoundIn) (resp : PlayResponseR) (s : MachineState) :
    (eventsPhase p resp s).featureGameWinningLines = s.featureGameWinningLines := by
  obtain ⟨ev, fe, wf, ws, h⟩ := eventsPhase_frame p resp s
  rw [h]

theorem eventsPhase_apiCalls (p : RoundIn) (resp : PlayResponseR) (s : MachineState) :
    (eventsPhase p resp s).apiCalls = s.apiCalls := by
  obtain ⟨ev, fe, wf, ws, h⟩ := eventsPhase_frame p resp s
  rw [h]

/-! The round body: request-count preservation and the shape of an
uncancelled round. -/

theorem roundBody_apiCalls (c : Nat → Bool) (p : RoundIn) (resp : PlayResponseR)
    (s : MachineState) : (roundBody c p resp s).1.apiCalls = s.apiCalls := by
  unfold roundBody
  dsimp only
  split_ifs <;>
    simp [eventsPhase_apiCalls, syncPhase, displayPhase_apiCalls, reelStopLoop_apiCalls]

theorem spinRound_apiCalls (c : Nat → Bool) (p : RoundIn) (api : Option PlayResponseR)
    (s : MachineState) : (spinRound c p api s).1.apiCalls = s.apiCalls + 1 := by
  unfold spinRound
  dsimp only
  cases api with
  | none => split_ifs <;> rfl
  | some resp =>
    rw [roundBody_apiCalls]
    rfl

theorem roundBody_never (p : RoundIn) (resp : PlayResponseR) (s : MachineState) :
    ∃ t : MachineState,
      roundBody neverCancelled p resp s =
        (eventsPhase p resp (syncPhase resp t), some resp.player.results) ∧
      t = (displayPhase neverCancelled p resp (computeReelsToExpand resp)
        ((reelStopLoop neverCancelled p.numReels resp.player.results.grid
          (List.range p.numReels) 3
          { s with reelsToExpand := computeReelsToExpand resp,
                   winningLines := [], showFeatureGameWins := false }).2.2 + 1)
        ((reelStopLoop neverCancelled p.numReels resp.player.results.grid
          (List.range p.numReels) 3
          { s with reelsToExpand := computeReelsToExpand resp,
                   winningLines := [], showFeatureGameWins := false }).1)).1 := by
  refine ⟨_, ?_, rfl⟩
  unfold roundBody
  dsimp only
  simp only [neverCancelled, Bool.false_eq_true, if_false, reelStopLoop_noAbort,
    displayPhase_noAbort]

/-! Claim theorems. -/

/-- C4: for every completed (non-cancelled) spin round, the orchestrator
balance, free-spins-remaining, feature symbol and last-win state are set
exactly to the values carried in the player object of the server response,
and the round returns exactly the server results object; the client never
computes or adjusts these values itself. -/
theorem c4_server_values_verbatim (p : RoundIn) (resp : PlayResponseR)
    (s0 : MachineState) :
    (spinRound neverCancelled p (some resp) s0).1.balance = resp.player.balance ∧
    (spinRound neverCancelled p (some resp) s0).1.freeSpinsRemaining =
      resp.player.freeSpinsRemaining ∧
    (spinRound neverCancelled p (some resp) s0).1.featureSymbol =
      resp.player.featureSymbol ∧
    (spinRound neverCancelled p (some resp) s0).1.lastWin = resp.player.lastWin ∧
    (spinRound neverCancelled p (some resp) s0).2 = some resp.player.results := by
  obtain ⟨t, hb, _⟩ := roundBody_never p resp
    { startAllReels p.numReels (clearTransient p.numReels s0) with
      apiCalls := (startAllReels p.numReels (clearTransient p.numReels s0)).apiCalls + 1 }
  have hs : spinRound neverCancelled p (some resp) s0 =
      (eventsPhase p resp (syncPhase resp t), some resp.player.results) := hb
  rw [hs]
  dsimp only
  refine ⟨?_, ?_, ?_, ?_, rfl⟩
  · rw [eventsPhase_balance]
    rfl
  · rw [eventsPhase_freeSpins]
    rfl
  · rw [eventsPhase_featureSymbol]
    rfl
  · rw [eventsPhase_lastWin]
    rfl

/-- C6: if the spin API call rejects and the round was not cancelled, the
round aborts in the fully cleared idle state: every reel-spinning flag is
cleared, the error toast is raised, the balance and grid are untouched,
every transient visual field stays cleared, exactly one request was issued
and no further request is made, and no result is returned. -/
theorem c6_api_failure_aborts (c : Nat → Bool) (p : RoundIn) (s0 : MachineState)
    (hc : c 2 = false) :
    spinRound c p none s0 =
      ({ clearTransient p.numReels s0 with
         spinningReels := List.replicate p.numReels false,
         apiCalls := s0.apiCalls + 1, toastError := true }, none) ∧
    isSpinningM (spinRound c p none s0).1 = false := by
  have h1 : spinRound c p none s0 =
      ({ clearTransient p.numReels s0 with
         spinningReels := List.replicate p.numReels false,
         apiCalls := s0.apiCalls + 1, toastError := true }, none) := by
    unfold spinRound
    dsimp only
    rw [hc]
    rfl
  refine ⟨h1, ?_⟩
  rw [h1]
  simp [isSpinningM, any_replicate_false]

/-- C6 witness: the failure path of a round that was never superseded, run
on the concrete base state. -/
theorem c6_api_failure_aborts_witness :
    neverCancelled 2 = false ∧
    spinRound neverCancelled pBase none sBase =
      ({ clearTransient pBase.numReels sBase with
         spinningReels := List.replicate pBase.numReels false,
         apiCalls := sBase.apiCalls + 1, toastError := true }, none) :=
  ⟨rfl, (c6_api_failure_aborts neverCancelled pBase sBase rfl).1⟩

/-- C3: in free-spin mode, when the expandedSymbols of the response cover at
least the threshold number of distinct reels for the active feature symbol
(2 for Queen, Stone, Leopard and Wolf; 3 otherwise), after the uncancelled
round settles every row of each such reel holds the feature symbol, and the
displayed winning lines and the stored feature-game lines both equal the
featureGameWinningLines of the response filtered to active paylines, not the
base-game lines. -/
theorem c3_expansion_settles (p : RoundIn) (resp : PlayResponseR)
    (s0 : MachineState)
    (hfs : p.fs = true)
    (hsym : resp.featureSymbol ≠ "")
    (hthr : expansionThreshold resp.featureSymbol ≤ (computeReelsToExpand resp).length)
    (hlen : s0.grid.length = p.numReels)
    (hreels : ∀ i ∈ computeReelsToExpand resp, i < p.numReels) :
    (∀ i ∈ computeReelsToExpand resp,
      (spinRound neverCancelled p (some resp) s0).1.grid.getD i [] =
        List.replicate p.numRows resp.featureSymbol) ∧
    (spinRound neverCancelled p (some resp) s0).1.winningLines =
      filterActiveLines (resp.player.results.featureGameWinningLines.getD []) ∧
    (spinRound neverCancelled p (some resp) s0).1.featureGameWinningLines =
      filterActiveLines (resp.player.results.featureGameWinningLines.getD []) := by
  obtain ⟨sp, hsp⟩ : ∃ x : MachineState,
      x = { startAllReels p.numReels (clearTransient p.numReels s0) with
            apiCalls :=
              (startAllReels p.numReels (clearTransient p.numReels s0)).apiCalls + 1 } :=
    ⟨_, rfl⟩
  obtain ⟨t, hb, ht⟩ := roundBody_never p resp sp
  obtain ⟨s2, hs2⟩ : ∃ x : MachineState,
      x = { sp with
            reelsToExpand := computeReelsToExpand resp,
            winningLines := [], showFeatureGameWins := false } := ⟨_, rfl⟩
  rw [← hs2] at ht
  have hs : spinRound neverCancelled p (some resp) s0 =
      (eventsPhase p resp (syncPhase resp t), some resp.player.results) := by
    rw [hsp] at hb
    exact hb
  have hlen2 : s2.grid.length = p.numReels := by
    rw [hs2, hsp]
    exact hlen
  have hloopLen : (reelStopLoop neverCancelled p.numReels resp.player.results.grid
      (List.range p.numReels) 3 s2).1.grid.length = p.numReels := by
    rw [reelStopLoop_gridLength]
    exact hlen2
  have hdisp := displayPhase_never_expand p resp (computeReelsToExpand resp)
    ((reelStopLoop neverCancelled p.numReels resp.player.results.grid
      (List.range p.numReels) 3 s2).2.2 + 1)
    ((reelStopLoop neverCancelled p.numReels resp.player.results.grid
      (List.range p.numReels) 3 s2).1)
    hfs hsym hthr (fun j hj => by rw [hloopLen]; exact hreels j hj)
  have hfl : featureLinesOf p.fs resp =
      filterActiveLines (resp.player.results.featureGameWinningLines.getD []) := by
    have hsymb : (resp.featureSymbol == "") = false := by simpa using hsym
    simp [featureLinesOf, hfs, hsymb]
  have hgrid : (spinRound neverCancelled p (some resp) s0).1.grid = t.grid := by
    rw [hs]
    dsimp only
    rw [eventsPhase_grid]
    rfl
  have hwl : (spinRound neverCancelled p (some resp) s0).1.winningLines =
      t.winningLines := by
    rw [hs]
    dsimp only
    rw [eventsPhase_winningLines]
    rfl
  have hfgl : (spinRound neverCancelled p (some resp) s0).1.featureGameWinningLines =
      t.featureGameWinningLines := by
    rw [hs]
    dsimp only
    rw [eventsPhase_featureGameLines]
    rfl
  refine ⟨?_, ?_, ?_⟩
  · intro i hi
    rw [hgrid, ht]
    exact hdisp.2.2 i hi
  · rw [hwl, ht, ← hfl]
    exact hdisp.1
  · rw [hfgl, ht, ← hfl]
    exact hdisp.2.1

/-- C3 witness: the concrete free-spin round respExpand on sFree expands
both reels with the Queen symbol and installs its feature-game line. -/
theorem c3_expansion_settles_witness :
    pFree.fs = true ∧ respExpand.featureSymbol ≠ "" ∧
    expansionThreshold respExpand.featureSymbol ≤
      (computeReelsToExpand respExpand).length ∧
    (∀ i ∈ computeReelsToExpand respExpand,
      (spinRound neverCancelled pFree (some respExpand) sFree).1.grid.getD i [] =
        List.replicate pFree.numRows respExpand.featureSymbol) :=
  ⟨rfl, by decide, by decide,
    (c3_expansion_settles pFree respExpand sFree rfl (by decide) (by decide)
      (by decide) (by decide)).1⟩

/-- C7: whenever the animation and session guards pass, a spin attempt with
balance below the total bet, no free spins and no action-game spins is
stopped client-side: the insufficient-balance toast is raised and the state
is otherwise untouched, so no network request is issued; and whenever free
spins or action-game spins are available the attempt proceeds past the
balance check regardless of balance, issuing exactly one request. -/
theorem c7_balance_gate (c : Nat → Bool) (p : RoundIn)
    (api : Option PlayResponseR) (s : MachineState)
    (hanim : isFreeSpinsModeM s = true → isAnimatingM s = false)
    (hspin : isFreeSpinsModeM s = false → isSpinningM s = false)
    (hsess : s.hasSession = true) :
    (s.balance < s.totalBet → s.freeSpinsRemaining = 0 → s.actionGameSpinsProp = 0 →
      spinFull c p api s = ({ s with toastInsufficient := true }, none)) ∧
    ((0 < s.freeSpinsRemaining ∨ 0 < s.actionGameSpinsProp) →
      (spinFull c p api s).1.apiCalls = s.apiCalls + 1) := by
  constructor
  · intro h1 h2 h3
    have he : spinEntry s = .insufficientBalance := by
      unfold spinEntry
      split_ifs with g1 g2 g3 g4 <;>
        first
          | rfl
          | (exfalso; simp_all [isFreeSpinsModeM])
    unfold spinFull
    rw [he]
  · intro hav
    have he : spinEntry s = .proceed := by
      unfold spinEntry
      split_ifs with g1 g2 g3 g4 <;>
        first
          | rfl
          | (exfalso
             rcases hav with hav | hav <;> simp_all [isFreeSpinsModeM])
    unfold spinFull
    rw [he]
    exact spinRound_apiCalls c p api s

/-- C7 witness: on the concrete broke state the attempt only raises the
toast, and on the concrete free-spin state the attempt issues its single
request even with a zero balance. -/
theorem c7_balance_gate_witness :
    sBroke.balance < sBroke.totalBet ∧
    spinFull neverCancelled pBase none sBroke =
      ({ sBroke with toastInsufficient := true }, none) ∧
    ({ sFree with balance := 0 } : MachineState).balance <
      ({ sFree with balance := 0 } : MachineState).totalBet ∧
    0 < ({ sFree with balance := 0 } : MachineState).freeSpinsRemaining ∧
    (spinFull neverCancelled pFree none { sFree with balance := 0 }).1.apiCalls =
      ({ sFree with balance := 0 } : MachineState).apiCalls + 1 :=
  ⟨by decide,
   (c7_balance_gate neverCancelled pBase none sBroke (by decide) (by decide)
      (by decide)).1 (by decide) (by decide) (by decide),
   by decide, by decide,
   (c7_balance_gate neverCancelled pFree none { sFree with balance := 0 }
      (by decide) (by decide) (by decide)).2 (Or.inl (by decide))⟩

/-- Characterization of the spin() guard prefix reaching the request. -/
theorem spinEntry_proceed_iff (s : MachineState) :
    spinEntry s = .proceed ↔
      (¬(isFreeSpinsModeM s = true ∧ isAnimatingM s = true) ∧
       ¬(isFreeSpinsModeM s = false ∧ isSpinningM s = true) ∧
       s.hasSession = true ∧
       ¬(s.balance < s.totalBet ∧ s.freeSpinsRemaining = 0 ∧
         s.actionGameSpinsProp = 0)) := by
  unfold spinEntry
  split_ifs with g1 g2 g3 g4 <;>
    constructor <;> intro h <;> simp_all

/-- A scheduled autoplay spin never fires while anything is animating. -/
theorem autoplaySchedule_not_animating (a : AutoplayState) (s : MachineState) :
    autoplayEffectStep a s = .schedule → isAnimatingM s = false := by
  unfold autoplayEffectStep
  split_ifs with g1 g2 g3 g4 <;> intro h <;> simp_all

/-- Every spin request that starts passes the spin() guard prefix. -/
theorem requestStarts_proceed (k : SpinReq) (a : AutoplayState) (s : MachineState)
    (h : requestStarts k a s = true) : spinEntry s = .proceed := by
  cases k <;> simp [requestStarts] at h <;> tauto

/-- C1 counterexample: in base-game mode, idle reels, with a session and a
sufficient balance, a keyboard spin request does NOT start while the win
feedback is still visible — so outside free-spin mode more than literal
reel-spinning blocks a keyboard-initiated spin, contradicting the claim. -/
theorem c1_keyboard_blocked_counterexample :
    isFreeSpinsModeM sFeedback = false ∧
    isSpinningM sFeedback = false ∧
    sFeedback.hasSession = true ∧
    sFeedback.totalBet ≤ sFeedback.balance ∧
    requestStarts .keyboard stopAutoplayState sFeedback = false := by
  decide

/-- C1 amended: in free-spin mode no request of any kind starts while the
composite busy flag is raised; outside free-spin mode the spin() guard
itself blocks only on literal reel-spinning (plus session and balance), so
a direct action may interrupt trailing animations; but the keyboard and
autoplay entry points additionally require the composite busy flag to be
false in every mode. -/
theorem c1_amended_spin_gating (a : AutoplayState) (s : MachineState) :
    (isFreeSpinsModeM s = true →
      ∀ k : SpinReq, requestStarts k a s = true → isAnimatingM s = false) ∧
    (isFreeSpinsModeM s = false →
      (requestStarts .action a s = true ↔
        (isSpinningM s = false ∧ s.hasSession = true ∧
          (s.totalBet ≤ s.balance ∨ 0 < s.actionGameSpinsProp)))) ∧
    (requestStarts .keyboard a s = true → isAnimatingM s = false) ∧
    (requestStarts .autoplay a s = true → isAnimatingM s = false) := by
  have hfs0 : isFreeSpinsModeM s = false → s.freeSpinsRemaining = 0 := by
    intro h
    simpa [isFreeSpinsModeM] using h
  refine ⟨?_, ?_, ?_, ?_⟩
  · intro hfs k h
    have hp := (spinEntry_proceed_iff s).mp (requestStarts_proceed k a s h)
    by_contra han
    exact hp.1 ⟨hfs, by simpa using han⟩
  · intro hfs
    constructor
    · intro h
      have hp := (spinEntry_proceed_iff s).mp (requestStarts_proceed .action a s h)
      refine ⟨?_, hp.2.2.1, ?_⟩
      · by_contra hsp
        exact hp.2.1 ⟨hfs, by simpa using hsp⟩
      · have h4 := hp.2.2.2
        by_cases hb : s.balance < s.totalBet
        · by_cases hg : s.actionGameSpinsProp = 0
          · exact absurd ⟨hb, hfs0 hfs, hg⟩ h4
          · exact Or.inr (Nat.pos_of_ne_zero hg)
        · exact Or.inl (not_lt.mp hb)
    · intro ⟨h1, h2, h3⟩
      have hp : spinEntry s = .proceed := by
        rw [spinEntry_proceed_iff]
        refine ⟨?_, ?_, h2, ?_⟩
        · rintro ⟨hf, _⟩
          rw [hfs] at hf
          cases hf
        · rintro ⟨_, hsp⟩
          rw [h1] at hsp
          cases hsp
        · rintro ⟨hb, _, hg⟩
          rcases h3 with h3 | h3
          · exact absurd h3 (not_le.mpr hb)
          · rw [hg] at h3
            cases h3
      simp [requestStarts, hp]
  · intro h
    simp only [requestStarts, Bool.and_eq_true] at h
    have hk := h.1
    unfold keyboardReelSpinAllowed at hk
    simp only [Bool.and_eq_true, Bool.not_eq_true'] at hk
    exact hk.1.1.2
  · intro h
    simp only [requestStarts, Bool.and_eq_true, decide_eq_true_eq] at h
    exact autoplaySchedule_not_animating a s h.1

/-- C1 witness: on the concrete idle base state a direct spin action starts
exactly under the amended base-game condition. -/
theorem c1_amended_spin_gating_witness :
    isFreeSpinsModeM sBase = false ∧
    requestStarts .action stopAutoplayState sBase = true :=
  ⟨by decide,
   ((c1_amended_spin_gating stopAutoplayState sBase).2.1 (by decide)).mpr
     ⟨by decide, by decide, Or.inl (by decide)⟩⟩

/-- C5: the autoplay machinery stops exactly when the spins-remaining
counter is exhausted, or the balance is below the total bet outside
free-spin mode with no action-game spins, or a configured stop condition
holds on the result of a round (any win with stop-on-any-win, a win above
the single-win threshold, a free-spin trigger with stop-on-feature, or
cumulative loss since autoplay start above the loss threshold) — and for no
other reason. -/
theorem c5_autoplay_stops_exactly (a : AutoplayState) (s : MachineState)
    (balance : Rat) (r : SpinResultR) :
    ((autoplayEffectStep a s = .stopCounter ∨
      autoplayEffectStep a s = .stopInsufficient) ↔
      (a.isActive = true ∧ a.settings.isSome = true ∧
        (a.spinsRemaining = 0 ∨
          (s.balance < s.totalBet ∧ isFreeSpinsModeM s = false ∧
           s.actionGameSpinsProp = 0)))) ∧
    (checkAutoplayStopConditions a balance r = true ↔
      (a.isActive = true ∧ ∃ st, a.settings = some st ∧
        ((st.stopOnAnyWin = true ∧ 0 < r.totalWin) ∨
         st.stopOnSingleWinExceeds < r.totalWin ∨
         (st.stopOnFeature = true ∧ r.scatterWin.triggeredFreeSpins = true) ∨
         st.stopOnTotalLossExceeds < a.originalBalance - balance))) := by
  constructor
  · unfold autoplayEffectStep
    split_ifs with g1 g2 g3 g4 <;>
      constructor <;> intro h <;> simp_all [Option.isSome_iff_ne_none]
  · unfold checkAutoplayStopConditions
    cases hst : a.settings with
    | none => simp
    | some st =>
      split_ifs <;>
        constructor <;> intro h <;> simp_all

/-- C10: for every non-empty, duplicate-free configured bet menu:
increasing the bet at the last entry wraps to the first entry, decreasing at
the first entry wraps to the last, and when the current bet is absent from
the menu both operations set the first entry. -/
theorem c10_bet_menu_wrap (l : List Rat) (bet : Rat) (hne : l ≠ [])
    (hnd : l.Nodup) :
    (bet = l.getLast hne → handleIncreaseBet l bet = l.head hne) ∧
    (bet = l.head hne → handleDecreaseBet l bet = l.getLast hne) ∧
    (bet ∉ l → handleIncreaseBet l bet = l.head hne ∧
      handleDecreaseBet l bet = l.head hne) := by
  have hlen : 0 < l.length := List.length_pos.mpr hne
  have hhd : l.headD 0 = l.head hne := by
    cases l with
    | nil => exact absurd rfl hne
    | cons a as => rfl
  have hhd0 : l.getD 0 0 = l.head hne := by
    cases l with
    | nil => exact absurd rfl hne
    | cons a as => rfl
  refine ⟨?_, ?_, ?_⟩
  · intro hb
    have hmem : bet ∈ l := hb ▸ l.getLast_mem hne
    have h1 : l.indexOf bet < l.length := List.indexOf_lt_length.mpr hmem
    have h2 : l.get ⟨l.indexOf bet, h1⟩ = bet := List.indexOf_get h1
    have h3 : l.get ⟨l.length - 1, by omega⟩ = bet := by
      rw [List.get_eq_getElem]
      rw [hb, List.getLast_eq_getElem]
    have h4 : (⟨l.indexOf bet, h1⟩ : Fin l.length) = ⟨l.length - 1, by omega⟩ :=
      (hnd.get_inj_iff).mp (h2.trans h3.symm)
    have hidx : l.indexOf bet = l.length - 1 := by
      simpa using congrArg Fin.val h4
    have hmod : (l.indexOf bet + 1) % l.length = 0 := by
      have hsucc : l.length - 1 + 1 = l.length := by omega
      rw [hidx, hsucc, Nat.mod_self]
    unfold handleIncreaseBet
    rw [if_pos hmem, hmod, hhd0]
  · intro hb
    have hmem : bet ∈ l := hb ▸ l.head_mem hne
    have hidx0 : l.indexOf bet = 0 := by
      cases l with
      | nil => exact absurd rfl hne
      | cons a as =>
        have hba : bet = a := hb
        rw [hba]
        exact List.indexOf_cons_self a as
    unfold handleDecreaseBet
    rw [if_pos hmem]
    simp only [hidx0, if_true]
    rw [List.getD_eq_getElem _ _ (by omega)]
    rw [List.getLast_eq_getElem]
  · intro hmem
    unfold handleIncreaseBet handleDecreaseBet
    rw [if_neg hmem, if_neg hmem, hhd]
    exact ⟨rfl, rfl⟩

/-- C10 witness: on the concrete menu 1, 2, 3, 5 the increase at 5 wraps to
1, the decrease at 1 wraps to 5, and an off-menu bet maps to 1. -/
theorem c10_bet_menu_wrap_witness :
    ([1, 2, 3, 5] : List Rat).Nodup ∧
    handleIncreaseBet [1, 2, 3, 5] 5 = 1 ∧
    handleDecreaseBet [1, 2, 3, 5] 1 = 5 ∧
    handleIncreaseBet [1, 2, 3, 5] 4 = 1 := by
  have h := c10_bet_menu_wrap [1, 2, 3, 5] 5 (by decide) (by decide)
  have h2 := c10_bet_menu_wrap [1, 2, 3, 5] 1 (by decide) (by decide)
  have h3 := c10_bet_menu_wrap [1, 2, 3, 5] 4 (by decide) (by decide)
  refine ⟨by decide, ?_, ?_, ?_⟩
  · simpa using h.1 (by decide)
  · simpa using h2.2.1 (by decide)
  · simpa using (h3.2.2 (by decide)).1

/-- C9 counterexample: a configuration document lacking the reelStrips
field does not block gameplay and is silently substituted with a generated
default strip putting every symbol on every reel, contradicting the claim
that absence of a required field is a fatal configuration error surfaced as
a blocking error state. -/
theorem c9_missing_field_not_fatal :
    cfgNoStrips.reelStrips = none ∧
    gameplayBlocked (some cfgNoStrips) = false ∧
    useReelStrips (some cfgNoStrips) = [["A", "B"], ["A", "B"]] := by
  decide

/-- C9 amended: only the absence of the entire configuration document
blocks gameplay (the component renders the loading screen); individually
missing fields are substituted silently: a missing reelStrips field yields
the generated fallback strip with every symbol on every reel, and with no
document at all the hooks return built-in defaults. -/
theorem c9_amended_config_defaults (cfg : Option ConfigDoc) (c : ConfigDoc) :
    (gameplayBlocked cfg = true ↔ cfg = none) ∧
    (c.reelStrips = none →
      useReelStrips (some c) = List.replicate c.numReels c.symbols) ∧
    useBetAmounts none = [1, 2, 3, 5, 10] ∧
    useNumReels none = 5 ∧
    useReelStrips none = [] := by
  refine ⟨?_, ?_, rfl, rfl, rfl⟩
  · cases cfg <;> simp [gameplayBlocked]
  · intro h
    simp [useReelStrips, h]

/-- C9 witness: the amended statement applied to the concrete document
without reel strips. -/
theorem c9_amended_config_defaults_witness :
    cfgNoStrips.reelStrips = none ∧
    useReelStrips (some cfgNoStrips) =
      List.replicate cfgNoStrips.numReels cfgNoStrips.symbols :=
  ⟨rfl, (c9_amended_config_defaults (some cfgNoStrips) cfgNoStrips).2.1 rfl⟩

/-- C8 counterexample: one wheel spin overwrites the accumulated
action-game win with the value in the server response, so the displayed
accumulated win DECREASES when the server reports a smaller value,
contradicting the claim that it never decreases. -/
theorem c8_accumulated_win_drop :
    (handleActionWheelSpin wheelRespDrop homeBase).accumulatedActionWin <
      homeBase.accumulatedActionWin := by
  decide

/-- C8 amended: completing the bonus wheel clears the wheel visibility and
the spin count but leaves the accumulated win unchanged; each wheel spin and
each state-change callback set the accumulated win to the server-provided
value, so the client never resets it on its own and the value never
decreases provided the server-side accumulated values never decrease. -/
theorem c8_amended_accumulated_win (s : HomeState) (r : ActionGameSpinResponseR)
    (sh : Bool) (sp : Nat) (w : Rat) :
    (handleActionWheelComplete s).accumulatedActionWin = s.accumulatedActionWin ∧
    (handleActionWheelComplete s).showActionWheel = false ∧
    (handleActionWheelComplete s).actionGameSpins = 0 ∧
    (handleActionWheelSpin r s).accumulatedActionWin = r.accumulatedWin ∧
    (handleActionWheelStateChange sh sp w s).accumulatedActionWin = w ∧
    (s.accumulatedActionWin ≤ r.accumulatedWin →
      s.accumulatedActionWin ≤ (handleActionWheelSpin r s).accumulatedActionWin) := by
  have hacc : (handleActionWheelSpin r s).accumulatedActionWin = r.accumulatedWin := by
    unfold handleActionWheelSpin
    dsimp only
    split_ifs <;> rfl
  refine ⟨rfl, rfl, rfl, hacc, rfl, ?_⟩
  intro h
  rw [hacc]
  exact h

/-- C8 witness: the amended statement applied to the concrete page state
and a response whose accumulated value grew. -/
theorem c8_amended_accumulated_win_witness :
    homeBase.accumulatedActionWin ≤ wheelRespUp.accumulatedWin ∧
    homeBase.accumulatedActionWin ≤
      (handleActionWheelSpin wheelRespUp homeBase).accumulatedActionWin :=
  ⟨by decide,
   (c8_amended_accumulated_win homeBase wheelRespUp true 0 0).2.2.2.2.2 (by decide)⟩

/-- C2 counterexample: with the cancellation flag already raised while
the round awaits the network response (segment 2), the round is abandoned
with no result, yet the reel-expand list has been overwritten from the
response of the superseded round: the write sits before the first
cancellation check of that segment, so a cancelled spin still mutates
visible state that the clearing prefix had reset. -/
theorem c2_stale_write_counterexample :
    (spinRound (cancelFrom 2) pFree (some respExpand) sBase).2 = none ∧
    (spinRound (cancelFrom 2) pFree (some respExpand) sBase).1.reelsToExpand
      = [0, 1] ∧
    (clearTransient pFree.numReels sBase).reelsToExpand = [] := by
  decide

/-- C2 amended: the synchronous prefix does clear every transient field
before the network call, but cancellation checks do not guard every write.
Cancelled at segment 2 or 3 the round still carries the reel-expand list
written from the stale response (with every reel left flagged spinning at
segment 2 and 3 the flags are only cleared by the superseding round).
Cancelled at segment 4 (inside the reel-stop loop) the flags are cleared
but the stale reel-expand list stays.  Cancelled at segment 5 (the
grid-settle wait of reel 0) the grid of reel 0 has been overwritten with
the stale response column and its bounce flag raised, because the source
performs no check between that wait and those writes. -/
theorem c2_amended_cancellation_writes (p : RoundIn) (resp : PlayResponseR)
    (s0 : MachineState) (n : Nat) (s : MachineState) (h2 : p.numReels = 2) :
    (clearTransient n s).reelsToExpand = [] ∧
    (clearTransient n s).lastWin = 0 ∧
    (clearTransient n s).winningFeedback = false ∧
    (clearTransient n s).winningLines = [] ∧
    (clearTransient n s).baseGameWinningLines = [] ∧
    (clearTransient n s).featureGameWinningLines = [] ∧
    (clearTransient n s).expandingReels = List.replicate n false ∧
    (clearTransient n s).bouncingReels = List.replicate n false ∧
    (clearTransient n s).spinningReels = List.replicate n false ∧
    spinRound (cancelFrom 2) p (some resp) s0 =
      ({ startAllReels p.numReels (clearTransient p.numReels s0) with
          apiCalls := s0.apiCalls + 1,
          reelsToExpand := computeReelsToExpand resp }, none) ∧
    spinRound (cancelFrom 3) p (some resp) s0 =
      ({ startAllReels p.numReels (clearTransient p.numReels s0) with
          apiCalls := s0.apiCalls + 1,
          reelsToExpand := computeReelsToExpand resp }, none) ∧
    spinRound (cancelFrom 4) p (some resp) s0 =
      ({ startAllReels p.numReels (clearTransient p.numReels s0) with
          apiCalls := s0.apiCalls + 1,
          reelsToExpand := computeReelsToExpand resp,
          spinningReels := List.replicate p.numReels false }, none) ∧
    spinRound (cancelFrom 5) p (some resp) s0 =
      ({ startAllReels p.numReels (clearTransient p.numReels s0) with
          apiCalls := s0.apiCalls + 1,
          reelsToExpand := computeReelsToExpand resp,
          grid := s0.grid.set 0 (resp.player.results.grid.getD 0 []),
          bouncingReels := (List.replicate p.numReels false).set 0 true,
          spinningReels := List.replicate p.numReels false }, none) := by
  obtain ⟨fs, tb, nr, rows, cfs⟩ := p
  dsimp only at h2
  subst h2
  exact ⟨rfl, rfl, rfl, rfl, rfl, rfl, rfl, rfl, rfl, rfl, rfl, rfl, rfl⟩

/-- C2 witness: the amended statement applied to concrete two-reel
parameters, state and response. -/
theorem c2_amended_cancellation_writes_witness :
    pFree.numReels = 2 ∧
    spinRound (cancelFrom 4) pFree (some respExpand) sBase =
      ({ startAllReels pFree.numReels (clearTransient pFree.numReels sBase) with
          apiCalls := sBase.apiCalls + 1,
          reelsToExpand := computeReelsToExpand respExpand,
          spinningReels := List.replicate pFree.numReels false }, none) :=
  ⟨rfl,
   (c2_amended_cancellation_writes pFree respExpand sBase 2 sBase
      rfl).2.2.2.2.2.2.2.2.2.2.2.1⟩

end Slot
